import Mathlib

/-!
Verification of the agent-smith investigative research assistant.

The development embeds the Python sources (`agent_workflow.py`, `tools.py`,
`orchestrator.py`, `sed_agent.py`) shallowly in Lean: pure helper functions
become Lean functions over an inductive JSON value type, the LangGraph
state-machine pipelines become explicit state-passing compositions, outbound
network and language-model calls become externally supplied outcome values
(`Except`/`Option` parameters), and the SQLite documents table becomes an
ordered list of rows.  Machine floats carried by evaluation scores are
modelled as rationals; Python string formatting of stdlib values
(`str`/`repr`/`json.dumps`) is modelled by explicit functions noted below.
-/

namespace AgentSmith

/-! ## Python string primitives -/

/-- Occurrence of `needle` at the head of `hay` (prefix test on char lists). -/
def charsAtHead : List Char → List Char → Bool
  | [], _ => true
  | _ :: _, [] => false
  | a :: as, b :: bs => a = b && charsAtHead as bs

/-- Occurrence of `needle` anywhere in `hay` (contiguous sublist test). -/
def charsOccur : List Char → List Char → Bool
  | n, [] => charsAtHead n []
  | n, b :: bs => charsAtHead n (b :: bs) || charsOccur n bs

/-- Python's `needle in hay` test on strings. -/
def pyIn (needle hay : String) : Bool :=
  charsOccur needle.data hay.data

/-- The whitespace characters stripped by Python's `str.strip()`
(ASCII part: space, tab, newline, carriage return, vertical tab, form feed). -/
def isPySpace (c : Char) : Bool :=
  c = ' ' || c = '\t' || c = '\n' || c = '\r' || c = '\x0b' || c = '\x0c'

/-- Python's `str.strip()`: drop leading and trailing whitespace. -/
def pyStrip (s : String) : String :=
  String.mk (((s.data.dropWhile isPySpace).reverse.dropWhile isPySpace).reverse)

/-- Helper for `splitlines`: walk the characters, `acc` holds the current
line reversed; line boundaries are `\n`, `\r\n` and `\r`. -/
def splitlinesAux : List Char → List Char → List String
  | [], [] => []
  | [], acc => [String.mk acc.reverse]
  | '\r' :: '\n' :: rest, acc => String.mk acc.reverse :: splitlinesAux rest []
  | '\n' :: rest, acc => String.mk acc.reverse :: splitlinesAux rest []
  | '\r' :: rest, acc => String.mk acc.reverse :: splitlinesAux rest []
  | c :: rest, acc => splitlinesAux rest (c :: acc)

/-- Python's `str.splitlines()` (no keepends): the empty string gives `[]`,
a trailing line break produces no trailing empty line. -/
def splitlines (s : String) : List String :=
  splitlinesAux s.data []

/-! ## JSON values

Parsed JSON data as it flows through the pipeline: Python dicts become
ordered field lists, numbers are modelled as integers (the claims under
study never depend on float formatting). -/

inductive Json where
  | null
  | bool (b : Bool)
  | num (n : Int)
  | str (s : String)
  | arr (items : List Json)
  | obj (fields : List (String × Json))

mutual
/-- Structural equality test on JSON values. -/
def jsonBEq : Json → Json → Bool
  | .null, .null => true
  | .bool a, .bool b => a == b
  | .num a, .num b => a == b
  | .str a, .str b => a == b
  | .arr a, .arr b => jsonBEqArr a b
  | .obj a, .obj b => jsonBEqObj a b
  | _, _ => false

def jsonBEqArr : List Json → List Json → Bool
  | [], [] => true
  | x :: xs, y :: ys => jsonBEq x y && jsonBEqArr xs ys
  | _, _ => false

def jsonBEqObj : List (String × Json) → List (String × Json) → Bool
  | [], [] => true
  | (k, v) :: xs, (k2, v2) :: ys => k == k2 && jsonBEq v v2 && jsonBEqObj xs ys
  | _, _ => false
end

mutual
theorem jsonBEq_iff : ∀ a b : Json, jsonBEq a b = true ↔ a = b
  | .null, b => by cases b <;> simp [jsonBEq]
  | .bool a, b => by cases b <;> simp [jsonBEq]
  | .num a, b => by cases b <;> simp [jsonBEq]
  | .str a, b => by cases b <;> simp [jsonBEq]
  | .arr a, b => by
      cases b <;> simp [jsonBEq]
      rw [jsonBEqArr_iff]
  | .obj a, b => by
      cases b <;> simp [jsonBEq]
      rw [jsonBEqObj_iff]

theorem jsonBEqArr_iff : ∀ a b : List Json, jsonBEqArr a b = true ↔ a = b
  | [], [] => by simp [jsonBEqArr]
  | [], _ :: _ => by simp [jsonBEqArr]
  | _ :: _, [] => by simp [jsonBEqArr]
  | x :: xs, y :: ys => by
      rw [jsonBEqArr, Bool.and_eq_true, jsonBEq_iff x y, jsonBEqArr_iff xs ys]
      simp

theorem jsonBEqObj_iff : ∀ a b : List (String × Json), jsonBEqObj a b = true ↔ a = b
  | [], [] => by simp [jsonBEqObj]
  | [], _ :: _ => by simp [jsonBEqObj]
  | _ :: _, [] => by simp [jsonBEqObj]
  | (k, v) :: xs, (k2, v2) :: ys => by
      rw [jsonBEqObj, Bool.and_eq_true, Bool.and_eq_true, jsonBEq_iff v v2,
        jsonBEqObj_iff xs ys]
      simp
end

instance : DecidableEq Json := fun a b => decidable_of_iff _ (jsonBEq_iff a b)

mutual
/-- Python `repr` of a parsed-JSON value (quote escaping inside strings is
elided: a string is shown between plain single quotes, `\x27`). -/
def pyRepr : Json → String
  | .null => "None"
  | .bool true => "True"
  | .bool false => "False"
  | .num n => toString n
  | .str s => "\x27" ++ s ++ "\x27"
  | .arr items => "[" ++ pyReprArr items ++ "]"
  | .obj fields => "\x7b" ++ pyReprObj fields ++ "\x7d"

def pyReprArr : List Json → String
  | [] => ""
  | [x] => pyRepr x
  | x :: y :: xs => pyRepr x ++ ", " ++ pyReprArr (y :: xs)

def pyReprObj : List (String × Json) → String
  | [] => ""
  | [(k, v)] => "\x27" ++ k ++ "\x27: " ++ pyRepr v
  | (k, v) :: y :: xs => "\x27" ++ k ++ "\x27: " ++ pyRepr v ++ ", " ++ pyReprObj (y :: xs)
end

/-- Python `str` of a parsed-JSON value: a string shows its own characters,
everything else is shown as by `repr`. -/
def pyStr : Json → String
  | .str s => s
  | v => pyRepr v

/-- Python truthiness of a parsed-JSON value (used by `if relevant_record:`). -/
def truthyJson : Json → Bool
  | .null => false
  | .bool b => b
  | .num n => n != 0
  | .str s => s != ""
  | .arr items => !items.isEmpty
  | .obj fields => !fields.isEmpty

mutual
/-- Subterm occurrence: `t` occurs inside `root` (at the root or nested in
an array element or an object value). -/
def jsonContains : Json → Json → Bool
  | .null, t => jsonBEq .null t
  | .bool b, t => jsonBEq (.bool b) t
  | .num n, t => jsonBEq (.num n) t
  | .str s, t => jsonBEq (.str s) t
  | .arr items, t => jsonBEq (.arr items) t || jsonContainsArr items t
  | .obj fields, t => jsonBEq (.obj fields) t || jsonContainsObj fields t

def jsonContainsArr : List Json → Json → Bool
  | [], _ => false
  | x :: xs, t => jsonContains x t || jsonContainsArr xs t

def jsonContainsObj : List (String × Json) → Json → Bool
  | [], _ => false
  | (_, v) :: xs, t => jsonContains v t || jsonContainsObj xs t
end

/-! ## Helpers of `agent_workflow.py` -/

/-- The test `any(query in str(v) for v in data.values())` on a dict's
field list (`agent_workflow.py` line 60). -/
def anyValueMatches (q : String) (fields : List (String × Json)) : Bool :=
  fields.any fun kv => pyIn q (pyStr kv.2)

mutual
/-- Embedding of `find_relevant_json_object` (`agent_workflow.py` 55–71):
recursively searches a JSON structure for the smallest object(s) containing
the query.  A dict whose values' string forms contain the query is returned
itself exactly when the recursive search over its values comes back empty;
lists and scalars only recurse / return nothing. -/
def find_relevant_json_object : Json → String → List Json
  | .null, _ => []
  | .bool _, _ => []
  | .num _, _ => []
  | .str _, _ => []
  | .arr items, q => findRelevantArr items q
  | .obj fields, q =>
      if anyValueMatches q fields then
        if (findRelevantObj fields q).isEmpty then [.obj fields]
        else findRelevantObj fields q
      else
        findRelevantObj fields q

def findRelevantArr : List Json → String → List Json
  | [], _ => []
  | x :: xs, q => find_relevant_json_object x q ++ findRelevantArr xs q

def findRelevantObj : List (String × Json) → String → List Json
  | [], _ => []
  | (_, v) :: xs, q => find_relevant_json_object v q ++ findRelevantObj xs q
end

/-- Embedding of `isolate_relevant_line` (`agent_workflow.py` 73–79): the
first line of the chunk content containing the query, stripped; the empty
string when no line matches. -/
def isolate_relevant_line (chunk_content q : String) : String :=
  match (splitlines chunk_content).find? (fun line => pyIn q line) with
  | some line => pyStrip line
  | none => ""

/-! ## Properties of `find_relevant_json_object` (claim C1) -/

theorem jsonBEq_refl (a : Json) : jsonBEq a a = true :=
  (jsonBEq_iff a a).mpr rfl

/-- The root-level match test of the recursive search: `d` is a dict one of
whose values' string forms contains the query. -/
def isMatchingObj (q : String) : Json → Bool
  | .obj fields => anyValueMatches q fields
  | _ => false

/-- Shape of every returned object: a dict that matches the query directly
and whose own recursive search comes back empty. -/
def SmallestMatch (q : String) (d : Json) : Prop :=
  ∃ fields, d = Json.obj fields ∧ anyValueMatches q fields = true ∧
    findRelevantObj fields q = []

mutual
theorem find_mem_spec (q : String) :
    ∀ j : Json, ∀ d ∈ find_relevant_json_object j q,
      SmallestMatch q d ∧ jsonContains j d = true
  | .null, d, hd => by simp [find_relevant_json_object] at hd
  | .bool _, d, hd => by simp [find_relevant_json_object] at hd
  | .num _, d, hd => by simp [find_relevant_json_object] at hd
  | .str _, d, hd => by simp [find_relevant_json_object] at hd
  | .arr items, d, hd => by
      rw [find_relevant_json_object] at hd
      obtain ⟨hs, hc⟩ := findArr_mem_spec q items d hd
      exact ⟨hs, by rw [jsonContains]; simp [hc]⟩
  | .obj fields, d, hd => by
      rw [find_relevant_json_object] at hd
      by_cases hm : anyValueMatches q fields = true
      · rw [if_pos hm] at hd
        by_cases he : (findRelevantObj fields q).isEmpty = true
        · rw [if_pos he] at hd
          have hdeq : d = Json.obj fields := List.mem_singleton.mp hd
          subst hdeq
          refine ⟨⟨fields, rfl, hm, List.isEmpty_iff.mp he⟩, ?_⟩
          rw [jsonContains]
          simp [jsonBEq_refl]
        · rw [if_neg he] at hd
          obtain ⟨hs, hc⟩ := findObj_mem_spec q fields d hd
          exact ⟨hs, by rw [jsonContains]; simp [hc]⟩
      · rw [if_neg hm] at hd
        obtain ⟨hs, hc⟩ := findObj_mem_spec q fields d hd
        exact ⟨hs, by rw [jsonContains]; simp [hc]⟩

theorem findArr_mem_spec (q : String) :
    ∀ l : List Json, ∀ d ∈ findRelevantArr l q,
      SmallestMatch q d ∧ jsonContainsArr l d = true
  | [], d, hd => by simp [findRelevantArr] at hd
  | x :: xs, d, hd => by
      rw [findRelevantArr] at hd
      rcases List.mem_append.mp hd with h | h
      · obtain ⟨hs, hc⟩ := find_mem_spec q x d h
        exact ⟨hs, by rw [jsonContainsArr]; simp [hc]⟩
      · obtain ⟨hs, hc⟩ := findArr_mem_spec q xs d h
        exact ⟨hs, by rw [jsonContainsArr]; simp [hc]⟩

theorem findObj_mem_spec (q : String) :
    ∀ kvs : List (String × Json), ∀ d ∈ findRelevantObj kvs q,
      SmallestMatch q d ∧ jsonContainsObj kvs d = true
  | [], d, hd => by simp [findRelevantObj] at hd
  | (k, v) :: xs, d, hd => by
      rw [findRelevantObj] at hd
      rcases List.mem_append.mp hd with h | h
      · obtain ⟨hs, hc⟩ := find_mem_spec q v d h
        exact ⟨hs, by rw [jsonContainsObj]; simp [hc]⟩
      · obtain ⟨hs, hc⟩ := findObj_mem_spec q xs d h
        exact ⟨hs, by rw [jsonContainsObj]; simp [hc]⟩
end

/-- A returned object, searched on its own, returns exactly itself. -/
theorem find_of_smallestMatch {q : String} {d : Json} (h : SmallestMatch q d) :
    find_relevant_json_object d q = [d] := by
  obtain ⟨fields, rfl, hm, he⟩ := h
  rw [find_relevant_json_object, if_pos hm, if_pos (by simp [he])]

mutual
theorem find_eq_nil_iff (q : String) :
    ∀ j : Json, find_relevant_json_object j q = [] ↔
      ∀ d, jsonContains j d = true → isMatchingObj q d = false
  | .null => by
      rw [find_relevant_json_object]
      constructor
      · intro _ d hc
        rw [jsonContains] at hc
        obtain rfl := (jsonBEq_iff _ _).mp hc
        rfl
      · intro _; rfl
  | .bool b => by
      rw [find_relevant_json_object]
      constructor
      · intro _ d hc
        rw [jsonContains] at hc
        obtain rfl := (jsonBEq_iff _ _).mp hc
        rfl
      · intro _; rfl
  | .num n => by
      rw [find_relevant_json_object]
      constructor
      · intro _ d hc
        rw [jsonContains] at hc
        obtain rfl := (jsonBEq_iff _ _).mp hc
        rfl
      · intro _; rfl
  | .str s => by
      rw [find_relevant_json_object]
      constructor
      · intro _ d hc
        rw [jsonContains] at hc
        obtain rfl := (jsonBEq_iff _ _).mp hc
        rfl
      · intro _; rfl
  | .arr items => by
      rw [find_relevant_json_object, findArr_eq_nil_iff q items]
      constructor
      · intro hall d hc
        rw [jsonContains] at hc
        simp only [Bool.or_eq_true] at hc
        rcases hc with hbeq | hnest
        · obtain rfl := (jsonBEq_iff _ _).mp hbeq
          rfl
        · exact hall d hnest
      · intro hall d hc
        exact hall d (by rw [jsonContains]; simp [hc])
  | .obj fields => by
      rw [find_relevant_json_object]
      by_cases hm : anyValueMatches q fields = true
      · rw [if_pos hm]
        constructor
        · intro h
          exfalso
          by_cases he : (findRelevantObj fields q).isEmpty = true
          · rw [if_pos he] at h
            exact List.cons_ne_nil _ _ h
          · rw [if_neg he] at h
            rw [h] at he
            exact he rfl
        · intro hall
          exfalso
          have hc : jsonContains (Json.obj fields) (Json.obj fields) = true := by
            rw [jsonContains]; simp [jsonBEq_refl]
          have := hall (Json.obj fields) hc
          rw [isMatchingObj] at this
          rw [hm] at this
          exact absurd this (by decide)
      · rw [if_neg hm, findObj_eq_nil_iff q fields]
        constructor
        · intro hall d hc
          rw [jsonContains] at hc
          simp only [Bool.or_eq_true] at hc
          rcases hc with hbeq | hnest
          · obtain rfl := (jsonBEq_iff _ _).mp hbeq
            rw [isMatchingObj]
            exact Bool.not_eq_true _ ▸ hm
          · exact hall d hnest
        · intro hall d hc
          exact hall d (by rw [jsonContains]; simp [hc])

theorem findArr_eq_nil_iff (q : String) :
    ∀ l : List Json, findRelevantArr l q = [] ↔
      ∀ d, jsonContainsArr l d = true → isMatchingObj q d = false
  | [] => by
      rw [findRelevantArr]
      constructor
      · intro _ d hc
        rw [jsonContainsArr] at hc
        exact absurd hc (by simp)
      · intro _; rfl
  | x :: xs => by
      rw [findRelevantArr, List.append_eq_nil, find_eq_nil_iff q x,
        findArr_eq_nil_iff q xs]
      constructor
      · rintro ⟨h1, h2⟩ d hc
        rw [jsonContainsArr] at hc
        simp only [Bool.or_eq_true] at hc
        rcases hc with h | h
        · exact h1 d h
        · exact h2 d h
      · intro hall
        exact ⟨fun d h => hall d (by rw [jsonContainsArr]; simp [h]),
               fun d h => hall d (by rw [jsonContainsArr]; simp [h])⟩

theorem findObj_eq_nil_iff (q : String) :
    ∀ kvs : List (String × Json), findRelevantObj kvs q = [] ↔
      ∀ d, jsonContainsObj kvs d = true → isMatchingObj q d = false
  | [] => by
      rw [findRelevantObj]
      constructor
      · intro _ d hc
        rw [jsonContainsObj] at hc
        exact absurd hc (by simp)
      · intro _; rfl
  | (k, v) :: xs => by
      rw [findRelevantObj, List.append_eq_nil, find_eq_nil_iff q v,
        findObj_eq_nil_iff q xs]
      constructor
      · rintro ⟨h1, h2⟩ d hc
        rw [jsonContainsObj] at hc
        simp only [Bool.or_eq_true] at hc
        rcases hc with h | h
        · exact h1 d h
        · exact h2 d h
      · intro hall
        exact ⟨fun d h => hall d (by rw [jsonContainsObj]; simp [h]),
               fun d h => hall d (by rw [jsonContainsObj]; simp [h])⟩
end

/-- Every value returned by the recursive search is truthy in Python's sense
(a dict with a matching value is necessarily non-empty). -/
theorem truthy_of_mem_find {q : String} {j d : Json}
    (hd : d ∈ find_relevant_json_object j q) : truthyJson d = true := by
  obtain ⟨⟨fields, rfl, hm, _⟩, _⟩ := find_mem_spec q j d hd
  rw [truthyJson]
  cases fields with
  | nil => rw [anyValueMatches] at hm; simp [List.any] at hm
  | cons a l => simp [List.isEmpty]

/-- C1: `find_relevant_json_object` returns exactly the smallest matching
dict objects: every returned value is a dict occurring in the input, the
query is a substring of the string form of at least one of its values, and
its own recursive search yields no result (re-searching it returns exactly
itself, so no strictly smaller matching dict inside it is missed); the
result is empty exactly when no dict anywhere in the structure has the
query as a substring of the string form of one of its values, so in
particular a top-level scalar or a list of matching strings yields nothing. -/
theorem c1_find_relevant_json_object_smallest (data : Json) (q : String) :
    (∀ d ∈ find_relevant_json_object data q,
        SmallestMatch q d ∧ isMatchingObj q d = true ∧
        jsonContains data d = true ∧ find_relevant_json_object d q = [d]) ∧
    (find_relevant_json_object data q = [] ↔
      ∀ d, jsonContains data d = true → isMatchingObj q d = false) := by
  refine ⟨fun d hd => ?_, find_eq_nil_iff q data⟩
  obtain ⟨hs, hc⟩ := find_mem_spec q data d hd
  obtain ⟨fields, rfl, hm, he⟩ := hs
  exact ⟨⟨fields, rfl, hm, he⟩, by rw [isMatchingObj]; exact hm, hc,
    find_of_smallestMatch ⟨fields, rfl, hm, he⟩⟩

/-! ## The chunk parser of `agent_workflow.py` (claims C2, C7) -/

/-- File metadata attached to a chunk (the `file` entry); either field may be
absent from the raw dict. -/
structure FileMeta where
  mime_type : Option String
  file_path : Option String
deriving DecidableEq

/-- One raw chunk from the chunk-search API, as `intelligent_parser_node`
reads it: `chunk.get("chunk_content", "")` and `chunk.get("file", {})`
(an absent `file` entry is `none`). -/
structure Chunk where
  chunk_content : String
  file : Option FileMeta
deriving DecidableEq

/-- Reading `file_meta.get("mime_type", "text/plain")`. -/
def Chunk.mimeType (c : Chunk) : String :=
  match c.file with
  | some f => f.mime_type.getD "text/plain"
  | none => "text/plain"

/-- Reading `file_meta.get("file_path", "N/A")`. -/
def Chunk.filePath (c : Chunk) : String :=
  match c.file with
  | some f => f.file_path.getD "N/A"
  | none => "N/A"

/-- The value bound to `relevant_record`: a JSON object from the recursive
search, or a line isolated from text content. -/
inductive RecordVal where
  | jsonRec (j : Json)
  | lineRec (s : String)
deriving DecidableEq

/-- Python truthiness of `relevant_record` (the `if relevant_record:` test). -/
def RecordVal.truthy : RecordVal → Bool
  | .jsonRec j => truthyJson j
  | .lineRec s => s != ""

/-- One entry of `parsed_records`: the record with its source citation. -/
structure ParsedRecord where
  source_file : String
  file_type : String
  record : RecordVal
deriving DecidableEq

/-- Per-chunk body of `intelligent_parser_node` (`agent_workflow.py` 115–152).
`jsonLoads` stands for Python's stdlib `json.loads`: `some` a parsed value,
`none` a `JSONDecodeError`.  A chunk with empty content is skipped; a JSON
mime type routes to the recursive object search (falling back to the line
search when parsing fails); a truthy record is emitted with the source file
path and mime type. -/
def parseChunk (jsonLoads : String → Option Json) (q : String) (c : Chunk) :
    Option ParsedRecord :=
  if c.chunk_content = "" then none
  else
    let relevant_record : Option RecordVal :=
      if pyIn "json" c.mimeType then
        match jsonLoads c.chunk_content with
        | some content =>
            match find_relevant_json_object content q with
            | [] => none
            | x :: _ => some (.jsonRec x)
        | none => some (.lineRec (isolate_relevant_line c.chunk_content q))
      else some (.lineRec (isolate_relevant_line c.chunk_content q))
    match relevant_record with
    | some r => if r.truthy then some ⟨c.filePath, c.mimeType, r⟩ else none
    | none => none

/-- `intelligent_parser_node` over the whole raw chunk list: the records of
the chunks that produce one, in order. -/
def intelligent_parser_node (jsonLoads : String → Option Json) (q : String)
    (raw_chunks : List Chunk) : List ParsedRecord :=
  raw_chunks.filterMap (parseChunk jsonLoads q)

/-- Text path of `parseChunkSpec`: a record exactly when some line contains
the query and the first such line is non-empty once stripped. -/
def textLineSpec (q : String) (c : Chunk) : Option ParsedRecord :=
  match (splitlines c.chunk_content).find? (fun line => pyIn q line) with
  | some line =>
      if pyStrip line = "" then none
      else some ⟨c.filePath, c.mimeType, .lineRec (pyStrip line)⟩
  | none => none

/-- The per-chunk parse as the specification describes it, with the one
correction the code forces: in the text path a record is produced exactly
when some line contains the query and that first matching line is non-empty
after stripping (the code's truthiness test drops a stripped-empty line). -/
def parseChunkSpec (jsonLoads : String → Option Json) (q : String) (c : Chunk) :
    Option ParsedRecord :=
  if c.chunk_content = "" then none
  else if pyIn "json" c.mimeType then
    match jsonLoads c.chunk_content with
    | some content =>
        (find_relevant_json_object content q).head?.map
          fun d => ⟨c.filePath, c.mimeType, .jsonRec d⟩
    | none => textLineSpec q c
  else textLineSpec q c

/-- The text path of the achieved parser agrees with the spec-side text path. -/
theorem parseChunk_text_eq (q : String) (c : Chunk) :
    (match some (RecordVal.lineRec (isolate_relevant_line c.chunk_content q)) with
      | some r => if r.truthy then some (⟨c.filePath, c.mimeType, r⟩ : ParsedRecord)
                  else none
      | none => none) = textLineSpec q c := by
  rw [textLineSpec, isolate_relevant_line]
  cases hf : (splitlines c.chunk_content).find? (fun line => pyIn q line) with
  | none => simp [RecordVal.truthy]
  | some line =>
      by_cases hs : pyStrip line = ""
      · simp [RecordVal.truthy, hs]
      · simp [RecordVal.truthy, hs]

/-- The per-chunk parse agrees with its specification-side description. -/
theorem parseChunk_eq_spec (jsonLoads : String → Option Json) (q : String)
    (c : Chunk) : parseChunk jsonLoads q c = parseChunkSpec jsonLoads q c := by
  rw [parseChunk, parseChunkSpec]
  by_cases hemp : c.chunk_content = ""
  · simp [hemp]
  · rw [if_neg hemp, if_neg hemp]
    by_cases hj : pyIn "json" c.mimeType = true
    · rw [if_pos hj, if_pos hj]
      cases hl : jsonLoads c.chunk_content with
      | none => exact parseChunk_text_eq q c
      | some content =>
          cases hfind : find_relevant_json_object content q with
          | nil => simp [hfind]
          | cons x xs =>
              have hx : truthyJson x = true :=
                truthy_of_mem_find (j := content) (q := q)
                  (by rw [hfind]; exact List.mem_cons_self x xs)
              simp [hfind, RecordVal.truthy, hx]
    · rw [if_neg hj, if_neg hj]
      exact parseChunk_text_eq q c

/-- C2 (amended): for every chunk the parser behaves as `parseChunkSpec`
says: empty content produces no record; with a JSON mime type and parseable
content the record is the first object of the recursive search (none when
the search is empty); otherwise — non-JSON mime type, or JSON parse failure
— the record is the first query-containing line stripped, produced exactly
when such a line exists and strips to a non-empty string. -/
theorem c2_parser_behaviour (jsonLoads : String → Option Json) (q : String)
    (c : Chunk) : parseChunk jsonLoads q c = parseChunkSpec jsonLoads q c :=
  parseChunk_eq_spec jsonLoads q c

/-- C2 counterexample to the claim as stated: a text chunk whose content is
a single space, searched for the query `" "`.  Some line of the content
contains the query, yet no parsed record is produced, because the matching
line strips to the empty string and Python's truthiness test discards it. -/
theorem c2_counterexample :
    ((splitlines " ").any fun line => pyIn " " line) = true ∧
    parseChunk (fun _ => none) " "
      ⟨" ", some ⟨some "text/plain", some "a.txt"⟩⟩ = none := by
  decide

/-! ## Substring facts for the citation bookkeeping -/

theorem charsAtHead_append (n t : List Char) : charsAtHead n (n ++ t) = true := by
  induction n with
  | nil => rw [charsAtHead]
  | cons a as ih => rw [List.cons_append, charsAtHead]; simp [ih]

theorem charsAtHead_extend (post : List Char) :
    ∀ n h : List Char, charsAtHead n h = true → charsAtHead n (h ++ post) = true
  | [], _, _ => by rw [charsAtHead]
  | a :: as, [], hh => by rw [charsAtHead] at hh; exact absurd hh (by simp)
  | a :: as, b :: bs, hh => by
      rw [charsAtHead] at hh
      simp only [Bool.and_eq_true] at hh
      rw [List.cons_append, charsAtHead]
      simp [hh.1, charsAtHead_extend post as bs hh.2]

theorem charsOccur_of_atHead : ∀ n h : List Char, charsAtHead n h = true →
    charsOccur n h = true
  | n, [], hh => by rwa [charsOccur]
  | n, b :: bs, hh => by rw [charsOccur]; simp [hh]

theorem charsOccur_extend_left (pre : List Char) {n h : List Char}
    (hh : charsOccur n h = true) : charsOccur n (pre ++ h) = true := by
  induction pre with
  | nil => simpa
  | cons a as ih =>
      rw [List.cons_append, charsOccur]
      simp [ih]

theorem charsOccur_extend_right (post : List Char) :
    ∀ {n h : List Char}, charsOccur n h = true → charsOccur n (h ++ post) = true := by
  intro n h
  induction h with
  | nil =>
      intro hh
      rw [charsOccur] at hh
      exact charsOccur_of_atHead n post (charsAtHead_extend post n [] hh)
  | cons b bs ih =>
      intro hh
      rw [charsOccur] at hh
      simp only [Bool.or_eq_true] at hh
      rw [List.cons_append, charsOccur]
      rcases hh with hh | hh
      · have h2 := charsAtHead_extend post n (b :: bs) hh
        rw [List.cons_append] at h2
        simp [h2]
      · simp [ih hh]

theorem pyIn_refl (s : String) : pyIn s s = true := by
  rw [pyIn]
  have := charsAtHead_append s.data []
  rw [List.append_nil] at this
  exact charsOccur_of_atHead _ _ this

theorem pyIn_append_left (pre : String) {n h : String} (hh : pyIn n h = true) :
    pyIn n (pre ++ h) = true := by
  rw [pyIn, String.data_append]
  exact charsOccur_extend_left pre.data hh

theorem pyIn_append_right (post : String) {n h : String} (hh : pyIn n h = true) :
    pyIn n (h ++ post) = true := by
  rw [pyIn, String.data_append]
  exact charsOccur_extend_right post.data hh

/-! ## The analysis and report stages of `agent_workflow.py` (claims C7, C8) -/

mutual
/-- Serialization of a record for the analysis prompt, modelling the stdlib
call `json.dumps(item["record"], indent=2)` (the two-space indentation layout
is elided: fields are rendered compactly). -/
def jsonDumps : Json → String
  | .null => "null"
  | .bool true => "true"
  | .bool false => "false"
  | .num n => toString n
  | .str s => "\"" ++ s ++ "\""
  | .arr items => "[" ++ jsonDumpsArr items ++ "]"
  | .obj fields => "\x7b" ++ jsonDumpsObj fields ++ "\x7d"

def jsonDumpsArr : List Json → String
  | [] => ""
  | [x] => jsonDumps x
  | x :: y :: xs => jsonDumps x ++ ", " ++ jsonDumpsArr (y :: xs)

def jsonDumpsObj : List (String × Json) → String
  | [] => ""
  | [(k, v)] => "\"" ++ k ++ "\": " ++ jsonDumps v
  | (k, v) :: y :: xs => "\"" ++ k ++ "\": " ++ jsonDumps v ++ ", " ++ jsonDumpsObj (y :: xs)
end

/-- The `record_str` value (`agent_workflow.py` 193): `json.dumps` of a dict
record, `str` of a line record. -/
def recordStr : RecordVal → String
  | .jsonRec j => jsonDumps j
  | .lineRec s => s

/-- One entry of `analysis_results` (`agent_workflow.py` 195–205): on a
successful model reply the templated finding citing file path, mime type
and the record evidence; when the analysis call raises, the bare
`Failed to analyze record {i+1}` string. -/
def findingFor (reply : Except String String) (i : Nat) (item : ParsedRecord) :
    String :=
  match reply with
  | .ok summary =>
      "Finding:\n" ++ summary ++ "\n\nSource Evidence (from file: \x27" ++
        item.source_file ++ "\x27, type: " ++ item.file_type ++ "):\n" ++
        recordStr item.record ++ "\n"
  | .error e => "Failed to analyze record " ++ toString (i + 1) ++ ". Error: " ++ e

/-- `targeted_analysis_node` (`agent_workflow.py` 158–208) with the model's
per-record reply outcomes supplied externally (the Gemini model is assumed
initialized); one finding per parsed record, in order. -/
def targeted_analysis_node (replies : Nat → Except String String)
    (parsed_records : List ParsedRecord) : List String :=
  if parsed_records.isEmpty then []
  else parsed_records.enum.map fun p => findingFor (replies p.1) p.1 p.2

/-- The `all_findings` string (`agent_workflow.py` 219): findings joined by
the `\n---\n` separator, as by Python's `str.join`. -/
def joinSep (sep : String) : List String → String
  | [] => ""
  | [x] => x
  | x :: y :: xs => x ++ sep ++ joinSep sep (y :: xs)

/-- A member of the joined list occurs in the joined string. -/
theorem pyIn_joinSep (sep : String) :
    ∀ l : List String, ∀ f ∈ l, pyIn f (joinSep sep l) = true
  | [x], f, hf => by
      obtain rfl := List.mem_singleton.mp hf
      rw [joinSep]
      exact pyIn_refl f
  | x :: y :: xs, f, hf => by
      rw [joinSep]
      rcases List.mem_cons.mp hf with rfl | hf
      · exact pyIn_append_right _ (pyIn_append_right _ (pyIn_refl f))
      · exact pyIn_append_left _ (pyIn_joinSep sep (y :: xs) f hf)

/-- `report_node` (`agent_workflow.py` 212–241): the fixed sentence when
there are no findings, else the model's report or the error fallback. -/
def report_node (reportReply : Except String String)
    (analysis_results : List String) : String :=
  if analysis_results.isEmpty then
    "No relevant findings were generated from the data."
  else
    match reportReply with
    | .ok t => t
    | .error e => "Could not generate report due to an error: " ++ e

/-! ## The workflow graph (`agent_workflow.py` 246–256) -/

/-- Nodes of the investigation workflow graph. -/
inductive WNode where
  | search
  | parse_records
  | analyze_records
  | generate_report
deriving DecidableEq

/-- The graph's static edges (`add_edge` calls): each node's unique
successor, `none` for `END`. -/
def wEdge : WNode → Option WNode
  | .search => some .parse_records
  | .parse_records => some .analyze_records
  | .analyze_records => some .generate_report
  | .generate_report => none

/-- The node sequence obtained by following the edges, with fuel. -/
def wTraceFuel : Nat → Option WNode → List WNode
  | _, none => []
  | 0, some _ => []
  | fuel + 1, some n => n :: wTraceFuel fuel (wEdge n)

/-- The compiled graph's execution order from the entry point
(`set_entry_point("search")`). -/
def workflowTrace : List WNode :=
  wTraceFuel 10 (some .search)

/-- The external outcomes one invocation of the workflow consumes: the JSON
parser, the chunk-search HTTP call outcomes (a stream, one entry per
`requests.post` issued), the per-record analysis replies and the report
reply. -/
structure WorkflowWorld where
  jsonLoads : String → Option Json
  searchAttempts : Nat → Except String (List Chunk)
  analysisReplies : Nat → Except String String
  reportReply : Except String String

/-- The state flowing through the workflow graph. -/
structure WorkflowState where
  query : String
  raw_chunks : List Chunk
  parsed_records : List ParsedRecord
  analysis_results : List String
  final_report : String

/-- `search_node` (`agent_workflow.py` 85–102): a single `requests.post`
call — the first entry of the outcome stream — with a failure mapped to an
empty chunk list (the `except` clause swallows the error; there is no retry
wrapper on this call). -/
def search_node (w : WorkflowWorld) (s : WorkflowState) : WorkflowState :=
  match w.searchAttempts 0 with
  | .ok items => { s with raw_chunks := items }
  | .error _ => { s with raw_chunks := [] }

/-- The parse stage as a state transformer. -/
def parse_stage (w : WorkflowWorld) (s : WorkflowState) : WorkflowState :=
  { s with parsed_records := intelligent_parser_node w.jsonLoads s.query s.raw_chunks }

/-- The analysis stage as a state transformer. -/
def analysis_stage (w : WorkflowWorld) (s : WorkflowState) : WorkflowState :=
  { s with analysis_results := targeted_analysis_node w.analysisReplies s.parsed_records }

/-- The report stage as a state transformer. -/
def report_stage (w : WorkflowWorld) (s : WorkflowState) : WorkflowState :=
  { s with final_report := report_node w.reportReply s.analysis_results }

/-- Execute one node of the graph. -/
def execWNode (w : WorkflowWorld) : WNode → WorkflowState → WorkflowState
  | .search => search_node w
  | .parse_records => parse_stage w
  | .analyze_records => analysis_stage w
  | .generate_report => report_stage w

/-- One `app.invoke`: fold the node bodies along the graph's trace. -/
def runWorkflow (w : WorkflowWorld) (s0 : WorkflowState) : WorkflowState :=
  workflowTrace.foldl (fun s n => execWNode w n s) s0

/-- C8: the investigation workflow is a linear pipeline: the compiled graph
executes exactly the four stages search → parse_records → analyze_records →
generate_report in that order, each exactly once, the report node has no
successor (the run terminates there), and one invocation is exactly the
four-fold composition of the stage bodies. -/
theorem c8_workflow_linear_pipeline (w : WorkflowWorld) (s0 : WorkflowState) :
    workflowTrace = [.search, .parse_records, .analyze_records, .generate_report] ∧
    (∀ n : WNode, workflowTrace.count n = 1) ∧
    wEdge .generate_report = none ∧
    runWorkflow w s0 =
      report_stage w (analysis_stage w (parse_stage w (search_node w s0))) := by
  refine ⟨rfl, fun n => by cases n <;> decide, rfl, rfl⟩

/-- Fields of any record the spec-side parse produces: the citation data
comes from the chunk's metadata getters. -/
theorem parseChunkSpec_fields {jsonLoads : String → Option Json} {q : String}
    {c : Chunk} {r : ParsedRecord} (h : parseChunkSpec jsonLoads q c = some r) :
    r.source_file = c.filePath ∧ r.file_type = c.mimeType := by
  rw [parseChunkSpec] at h
  by_cases hemp : c.chunk_content = ""
  · rw [if_pos hemp] at h
    exact absurd h (by simp)
  · rw [if_neg hemp] at h
    have htext : ∀ r2 : ParsedRecord, textLineSpec q c = some r2 →
        r2.source_file = c.filePath ∧ r2.file_type = c.mimeType := by
      intro r2 h2
      rw [textLineSpec] at h2
      cases hf : (splitlines c.chunk_content).find? (fun line => pyIn q line) with
      | none => rw [hf] at h2; exact absurd h2 (by simp)
      | some line =>
          rw [hf] at h2
          by_cases hs : pyStrip line = ""
          · simp [hs] at h2
          · simp [hs] at h2
            subst h2
            exact ⟨rfl, rfl⟩
    by_cases hj : pyIn "json" c.mimeType = true
    · rw [if_pos hj] at h
      cases hl : jsonLoads c.chunk_content with
      | none => rw [hl] at h; exact htext r h
      | some content =>
          rw [hl] at h
          obtain ⟨d, _, rfl⟩ := Option.map_eq_some'.mp h
          exact ⟨rfl, rfl⟩
    · rw [if_neg hj] at h
      exact htext r h

/-- C7 (amended): citation bookkeeping.  Every parsed record carries the
file path and mime type read through its chunk's metadata getters (which
default to `"N/A"` / `"text/plain"` when the metadata is absent); every
finding built from a successful analysis reply embeds that source file
path, that mime type and the record's serialized evidence; and every
finding occurs verbatim in the joined findings string handed to the report
prompt.  (A finding for a record whose analysis call raised is a bare error
string with no citation — see the counterexample.) -/
theorem c7_citations :
    (∀ (jsonLoads : String → Option Json) (q : String) (c : Chunk)
        (r : ParsedRecord), parseChunk jsonLoads q c = some r →
        r.source_file = c.filePath ∧ r.file_type = c.mimeType) ∧
    (∀ (summary : String) (i : Nat) (item : ParsedRecord),
        pyIn item.source_file (findingFor (.ok summary) i item) = true ∧
        pyIn item.file_type (findingFor (.ok summary) i item) = true ∧
        pyIn (recordStr item.record) (findingFor (.ok summary) i item) = true) ∧
    (∀ (sep : String) (l : List String), ∀ f ∈ l, pyIn f (joinSep sep l) = true) := by
  refine ⟨?_, ?_, pyIn_joinSep⟩
  · intro jsonLoads q c r h
    rw [parseChunk_eq_spec] at h
    exact parseChunkSpec_fields h
  · intro summary i item
    simp only [findingFor]
    refine ⟨?_, ?_, ?_⟩
    · exact pyIn_append_right _ (pyIn_append_right _ (pyIn_append_right _
        (pyIn_append_right _ (pyIn_append_right _
          (pyIn_append_left _ (pyIn_refl _))))))
    · exact pyIn_append_right _ (pyIn_append_right _ (pyIn_append_right _
        (pyIn_append_left _ (pyIn_refl _))))
    · exact pyIn_append_right _ (pyIn_append_left _ (pyIn_refl _))

/-- C7 counterexample to the claim as stated: when the analysis model call
for a record raises, the finding appended to `analysis_results` is the bare
`Failed to analyze record …` string, which does not embed the record's
source file path. -/
theorem c7_counterexample :
    targeted_analysis_node (fun _ => .error "boom")
        [⟨"secret.txt", "text/plain", .lineRec "evidence"⟩] =
      ["Failed to analyze record 1. Error: boom"] ∧
    pyIn "secret.txt" "Failed to analyze record 1. Error: boom" = false := by
  exact ⟨rfl, by decide⟩

/-! ## The retry wrapper of `tools.py` (claim C5) -/

/-- The loop of `retry_on_error` (`tools.py` 15–32), over an externally
supplied stream of call outcomes (`f i` is what the `i`-th call of the
wrapped function does).  The first component is the wrapper's outcome —
`none` models the `return None` fall-through, reachable only when
`max_retries` is `0` — and the second the list of sleeps performed,
`delay * (attempt + 1)` seconds after each failed non-final attempt. -/
def retryLoop (f : Nat → Except String α) (delay : ℚ) (maxRetries : Nat) :
    Nat → Nat → Option (Except String α) × List ℚ
  | _, 0 => (none, [])
  | attempt, remaining + 1 =>
      match f attempt with
      | .ok a => (some (.ok a), [])
      | .error e =>
          if attempt = maxRetries - 1 then (some (.error e), [])
          else
            let rest := retryLoop f delay maxRetries (attempt + 1) remaining
            (rest.1, delay * (attempt + 1) :: rest.2)

/-- `retry_on_error(max_retries, delay)` applied to a function whose `i`-th
invocation yields `f i`. -/
def retry_on_error (maxRetries : Nat) (delay : ℚ)
    (f : Nat → Except String α) : Option (Except String α) × List ℚ :=
  retryLoop f delay maxRetries 0 maxRetries

/-- `WebSearchTool.run` (`tools.py` 41–47) is wrapped by the default
`retry_on_error()`: 3 attempts, base delay 1 second.  The outcome stream
already carries the tool's own no-result sentinel mapping. -/
def webSearchRun (f : Nat → Except String (List α)) :
    Option (Except String (List α)) × List ℚ :=
  retry_on_error 3 1 f

/-- `SEDSearchTool.search` (`tools.py` 61–76) is likewise wrapped by the
default `retry_on_error()` (a request failure is re-raised as `SEDError`,
which the wrapper catches like any other exception). -/
def sedSearchRun (f : Nat → Except String (List α)) :
    Option (Except String (List α)) × List ℚ :=
  retry_on_error 3 1 f

/-- C5 (amended): the two search tools' calls are guarded by
`retry_on_error` with its default 3 attempts: a first-attempt success
returns immediately with no sleep; a failure is retried after sleeping
`delay * (attempt + 1)` seconds (increasing backoff `delay`, `2 * delay`);
the first success is returned as soon as it occurs; and only when all 3
attempts fail does the last exception propagate.  The investigation
workflow's chunk-search stage, by contrast, is NOT guarded: `search_node`
issues exactly one HTTP call — it reads only entry `0` of the outcome
stream — and maps a failure to an empty chunk list instead of retrying
(see the counterexample). -/
theorem c5_retry_behaviour (delay : ℚ) :
    (∀ (f : Nat → Except String (List Chunk)) a, f 0 = .ok a →
        retry_on_error 3 delay f = (some (.ok a), [])) ∧
    (∀ (f : Nat → Except String (List Chunk)) e0 a,
        f 0 = .error e0 → f 1 = .ok a →
        retry_on_error 3 delay f = (some (.ok a), [delay * 1])) ∧
    (∀ (f : Nat → Except String (List Chunk)) e0 e1 a,
        f 0 = .error e0 → f 1 = .error e1 → f 2 = .ok a →
        retry_on_error 3 delay f = (some (.ok a), [delay * 1, delay * 2])) ∧
    (∀ (f : Nat → Except String (List Chunk)) e0 e1 e2,
        f 0 = .error e0 → f 1 = .error e1 → f 2 = .error e2 →
        retry_on_error 3 delay f = (some (.error e2), [delay * 1, delay * 2])) ∧
    (∀ (w : WorkflowWorld) (s : WorkflowState)
        (g : Nat → Except String (List Chunk)), g 0 = w.searchAttempts 0 →
        search_node { w with searchAttempts := g } s = search_node w s) ∧
    (∀ (w : WorkflowWorld) (s : WorkflowState) e,
        w.searchAttempts 0 = .error e → (search_node w s).raw_chunks = []) := by
  refine ⟨?_, ?_, ?_, ?_, ?_, ?_⟩
  · intro f a h0
    rw [retry_on_error, retryLoop, h0]
  · intro f e0 a h0 h1
    rw [retry_on_error, retryLoop, h0]
    norm_num [retryLoop, h1]
  · intro f e0 e1 a h0 h1 h2
    rw [retry_on_error, retryLoop, h0]
    norm_num [retryLoop, h1, h2]
  · intro f e0 e1 e2 h0 h1 h2
    rw [retry_on_error, retryLoop, h0]
    norm_num [retryLoop, h1, h2]
  · intro w s g hg
    rw [search_node, search_node]
    simp only [hg]
  · intro w s e he
    rw [search_node, he]

/-- C5 counterexample to the claim as stated: a call-outcome stream whose
first attempt fails and whose second attempt would return one chunk.  The
chunk-search stage returns no chunks (it never issues a second call), while
the same stream run through the uniform `retry_on_error` wrapper — as the
claim asserts for every outbound HTTP call — recovers the chunk on the
retry. -/
theorem c5_counterexample :
    (search_node
        ⟨fun _ => none,
         fun i => if i = 0 then .error "timeout" else .ok [⟨"c", none⟩],
         fun _ => .error "", .error ""⟩
        ⟨"q", [], [], [], ""⟩).raw_chunks = [] ∧
    (retry_on_error 3 1
        (fun i => if i = 0 then .error "timeout"
                  else .ok [(⟨"c", none⟩ : Chunk)])).1 =
      some (.ok [⟨"c", none⟩]) := by
  constructor
  · rfl
  · rfl

/-! ## The orchestrator (`orchestrator.py`; claims C4, C6, C9) -/

/-- A conversation message (`{"role": ..., "content": ...}`). -/
structure Msg where
  role : String
  content : String
deriving DecidableEq

/-- One web search result as `WebSearchTool.run` returns it. -/
structure WebResult where
  title : String
  snippet : String
  url : String
deriving DecidableEq

/-- The planner's parsed JSON reply: `tool_choice` and `query`, either key
possibly absent from the object. -/
structure Plan where
  tool_choice : Option String
  query : Option String
deriving DecidableEq

/-- The state of the main orchestrator graph (`MainAgentState`). -/
structure MainAgentState where
  messages : List Msg
  tool_choice : String
  search_query : String
  search_results : List WebResult
  sed_summary : String
deriving DecidableEq

/-- The external outcomes one `process_message` turn consumes: whether the
SED agent initialized, the planner's reply (`none` when the model call
raised or its text failed to parse as JSON), the web-search call outcome
stream (fed through the retry wrapper), the SED agent's run result (its
`run` catches every exception and returns a string), and the
response-generation model outcome. -/
structure OrchWorld where
  sedAvailable : Bool
  plannerReply : Option Plan
  webAttempts : Nat → Except String (List WebResult)
  sedRun : String
  genReply : Except String String

/-- The tool choice read from the planner's reply,
`plan.get("tool_choice", "none")`; the parse-failure fallback is `"none"`. -/
def plannedChoice (w : OrchWorld) : String :=
  match w.plannerReply with
  | some plan => plan.tool_choice.getD "none"
  | none => "none"

/-- The tool choice after the availability demotion
(`orchestrator.py` 105–106): `sed_search` becomes `web_search` when the SED
agent failed to initialize. -/
def resolvedChoice (w : OrchWorld) : String :=
  if plannedChoice w = "sed_search" && !w.sedAvailable then "web_search"
  else plannedChoice w

/-- `_plan_and_route` (`orchestrator.py` 77–115).  Building the prompt reads
`messages[-1]` before the `try` block, so an empty history raises; otherwise
a parse failure falls back to no tool and an empty query, and a parsed plan
selects the tool with the `sed_search` demotion applied. -/
def planAndRoute (w : OrchWorld) (s : MainAgentState) :
    Except String MainAgentState :=
  if s.messages.isEmpty then .error "IndexError: list index out of range"
  else
    match w.plannerReply with
    | some plan =>
        let tc0 := plan.tool_choice.getD "none"
        let tc := if tc0 = "sed_search" && !w.sedAvailable then "web_search"
                  else tc0
        .ok { s with tool_choice := tc, search_query := plan.query.getD "" }
    | none => .ok { s with tool_choice := "none", search_query := "" }

/-- Nodes of the orchestrator graph (`orchestrator.py` 54–57). -/
inductive ONode where
  | plan_and_route
  | perform_web_search
  | call_sed_agent
  | generate_response
deriving DecidableEq

/-- The conditional-edge map out of `plan_and_route`
(`orchestrator.py` 61–69): a key outside the mapping is a runtime error. -/
def routeEdge (tool_choice : String) : Option ONode :=
  if tool_choice = "web_search" then some .perform_web_search
  else if tool_choice = "sed_search" then some .call_sed_agent
  else if tool_choice = "none" then some .generate_response
  else none

/-- The final outcome of the retry wrapper as the caller sees it (its
`none` fall-through is unreachable for 3 attempts). -/
def retryOutcome (f : Nat → Except String (List WebResult)) :
    Except String (List WebResult) :=
  match (webSearchRun f).1 with
  | some r => r
  | none => .error "unreachable"

/-- `_perform_web_search` (`orchestrator.py` 117–120): the retried web
search; its exception (after the final attempt) propagates. -/
def performWebSearch (w : OrchWorld) (s : MainAgentState) :
    Except String MainAgentState :=
  match retryOutcome w.webAttempts with
  | .ok rs => .ok { s with search_results := rs }
  | .error e => .error e

/-- `_call_sed_agent` (`orchestrator.py` 122–126): `SEDAgent.run` catches
every exception internally and returns a string. -/
def callSedAgent (w : OrchWorld) (s : MainAgentState) : MainAgentState :=
  { s with sed_summary := w.sedRun }

/-- `_generate_response` (`orchestrator.py` 128–146): on success appends
exactly one assistant message; a model failure raises. -/
def generateResponse (w : OrchWorld) (s : MainAgentState) :
    Except String MainAgentState :=
  match w.genReply with
  | .ok text => .ok { s with messages := s.messages ++ [⟨"assistant", text⟩] }
  | .error e => .error e

/-- One `graph.invoke` of the compiled orchestrator graph, unrolled along
its static structure: entry point `plan_and_route`; the conditional edges
route on `tool_choice`; both tool nodes lead to `generate_response`; and
`generate_response` leads to `END`.  Returns the final state together with
the trace of nodes executed. -/
def graphInvoke (w : OrchWorld) (s0 : MainAgentState) :
    Except String (MainAgentState × List ONode) :=
  match planAndRoute w s0 with
  | .error e => .error e
  | .ok s1 =>
      match routeEdge s1.tool_choice with
      | none => .error ("KeyError: " ++ s1.tool_choice)
      | some next =>
          let afterTool : Except String (MainAgentState × List ONode) :=
            match next with
            | .perform_web_search =>
                match performWebSearch w s1 with
                | .error e => .error e
                | .ok s2 => .ok (s2, [.plan_and_route, .perform_web_search])
            | .call_sed_agent =>
                .ok (callSedAgent w s1, [.plan_and_route, .call_sed_agent])
            | _ => .ok (s1, [.plan_and_route])
          match afterTool with
          | .error e => .error e
          | .ok (s2, tr) =>
              match generateResponse w s2 with
              | .error e => .error e
              | .ok s3 => .ok (s3, tr ++ [.generate_response])

/-- The initial state `process_message` builds (`orchestrator.py` 149–152). -/
def initialState (messages : List Msg) : MainAgentState :=
  ⟨messages, "none", "", [], ""⟩

/-- `process_message` (`orchestrator.py` 148–158), projected to the message
history the caller receives: the graph's final messages, or — when graph
execution raises — the unchanged input plus an assistant message reporting
the error. -/
def process_message (w : OrchWorld) (messages : List Msg) : List Msg :=
  match graphInvoke w (initialState messages) with
  | .ok (s, _) => s.messages
  | .error e =>
      messages ++ [⟨"assistant", "I\x27m sorry, an error occurred: " ++ e⟩]

/-- What `_plan_and_route` does to the state: messages, web results and SED
summary untouched; the tool choice becomes the resolved choice. -/
theorem planAndRoute_ok {w : OrchWorld} {s0 s1 : MainAgentState}
    (h : planAndRoute w s0 = .ok s1) :
    s1.messages = s0.messages ∧ s1.tool_choice = resolvedChoice w ∧
    s1.search_results = s0.search_results ∧ s1.sed_summary = s0.sed_summary := by
  rw [planAndRoute] at h
  by_cases hemp : s0.messages.isEmpty = true
  · rw [if_pos hemp] at h
    exact absurd h (by simp)
  · rw [if_neg hemp] at h
    cases hp : w.plannerReply with
    | none =>
        rw [hp] at h
        obtain rfl := (Except.ok.injEq _ _).mp h.symm
        exact ⟨rfl, by simp [resolvedChoice, plannedChoice, hp], rfl, rfl⟩
    | some plan =>
        rw [hp] at h
        obtain rfl := (Except.ok.injEq _ _).mp h.symm
        refine ⟨rfl, ?_, rfl, rfl⟩
        simp [resolvedChoice, plannedChoice, hp]

/-- Inversion of the conditional-edge map: which keys reach which node. -/
theorem routeEdge_inv (tc : String) (n : ONode) (h : routeEdge tc = some n) :
    (tc = "web_search" ∧ n = .perform_web_search) ∨
    (tc = "sed_search" ∧ n = .call_sed_agent) ∨
    (tc = "none" ∧ n = .generate_response) := by
  rw [routeEdge] at h
  by_cases h1 : tc = "web_search"
  · rw [if_pos h1] at h
    exact Or.inl ⟨h1, ((Option.some.injEq _ _).mp h).symm⟩
  · rw [if_neg h1] at h
    by_cases h2 : tc = "sed_search"
    · rw [if_pos h2] at h
      exact Or.inr (Or.inl ⟨h2, ((Option.some.injEq _ _).mp h).symm⟩)
    · rw [if_neg h2] at h
      by_cases h3 : tc = "none"
      · rw [if_pos h3] at h
        exact Or.inr (Or.inr ⟨h3, ((Option.some.injEq _ _).mp h).symm⟩)
      · rw [if_neg h3] at h
        exact absurd h (by simp)

/-- A successful `_generate_response` appends exactly one assistant message. -/
theorem generateResponse_ok {w : OrchWorld} {s s3 : MainAgentState}
    (h : generateResponse w s = .ok s3) :
    ∃ text, w.genReply = .ok text ∧
      s3 = { s with messages := s.messages ++ [⟨"assistant", text⟩] } := by
  rw [generateResponse] at h
  cases hg : w.genReply with
  | ok text =>
      rw [hg] at h
      exact ⟨text, rfl, ((Except.ok.injEq _ _).mp h).symm⟩
  | error e => rw [hg] at h; exact absurd h (by simp)

/-- A successful `_perform_web_search` leaves the messages untouched. -/
theorem performWebSearch_ok {w : OrchWorld} {s s2 : MainAgentState}
    (h : performWebSearch w s = .ok s2) : s2.messages = s.messages := by
  rw [performWebSearch] at h
  cases ho : retryOutcome w.webAttempts with
  | ok rs =>
      rw [ho] at h
      obtain rfl := ((Except.ok.injEq _ _).mp h).symm
      rfl
  | error e => rw [ho] at h; exact absurd h (by simp)

/-- What a completed orchestrator turn looks like: the response generator's
reply succeeded, exactly one assistant message was appended to the input
history, and the trace is the one selected by the resolved tool choice. -/
theorem graphInvoke_inv {w : OrchWorld} {s0 sf : MainAgentState}
    {tr : List ONode} (h : graphInvoke w s0 = .ok (sf, tr)) :
    ∃ text, w.genReply = .ok text ∧
      sf.messages = s0.messages ++ [⟨"assistant", text⟩] ∧
      ((resolvedChoice w = "none" ∧
          tr = [.plan_and_route, .generate_response]) ∨
       (resolvedChoice w = "web_search" ∧
          tr = [.plan_and_route, .perform_web_search, .generate_response]) ∨
       (resolvedChoice w = "sed_search" ∧
          tr = [.plan_and_route, .call_sed_agent, .generate_response])) := by
  rw [graphInvoke] at h
  cases hplan : planAndRoute w s0 with
  | error e => rw [hplan] at h; exact absurd h (by simp)
  | ok s1 =>
      rw [hplan] at h
      dsimp only at h
      obtain ⟨hmsg, htc, _, _⟩ := planAndRoute_ok hplan
      cases hroute : routeEdge s1.tool_choice with
      | none => rw [hroute] at h; exact absurd h (by simp)
      | some next =>
          rw [hroute] at h
          dsimp only at h
          have hinv := routeEdge_inv _ _ hroute
          cases next with
          | plan_and_route =>
              rcases hinv with ⟨_, hn⟩ | ⟨_, hn⟩ | ⟨_, hn⟩ <;>
                exact absurd hn (by decide)
          | generate_response =>
              have hchoice : s1.tool_choice = "none" := by
                rcases hinv with ⟨_, hn⟩ | ⟨_, hn⟩ | ⟨hc, _⟩ <;>
                  first
                    | exact absurd hn (by decide)
                    | exact hc
              dsimp only at h
              cases hgen : generateResponse w s1 with
              | error e => rw [hgen] at h; exact absurd h (by simp)
              | ok s3 =>
                  rw [hgen] at h
                  simp only [Except.ok.injEq, Prod.mk.injEq] at h
                  obtain ⟨rfl, rfl⟩ := h
                  obtain ⟨text, hgr, rfl⟩ := generateResponse_ok hgen
                  exact ⟨text, hgr, by simp [hmsg],
                    Or.inl ⟨by rw [← htc]; exact hchoice, rfl⟩⟩
          | perform_web_search =>
              have hchoice : s1.tool_choice = "web_search" := by
                rcases hinv with ⟨hc, _⟩ | ⟨_, hn⟩ | ⟨_, hn⟩ <;>
                  first
                    | exact absurd hn (by decide)
                    | exact hc
              dsimp only at h
              cases hweb : performWebSearch w s1 with
              | error e => rw [hweb] at h; exact absurd h (by simp)
              | ok s2 =>
                  rw [hweb] at h
                  dsimp only at h
                  cases hgen : generateResponse w s2 with
                  | error e => rw [hgen] at h; exact absurd h (by simp)
                  | ok s3 =>
                      rw [hgen] at h
                      simp only [Except.ok.injEq, Prod.mk.injEq] at h
                      obtain ⟨rfl, rfl⟩ := h
                      obtain ⟨text, hgr, rfl⟩ := generateResponse_ok hgen
                      refine ⟨text, hgr, ?_,
                        Or.inr (Or.inl ⟨by rw [← htc]; exact hchoice, rfl⟩)⟩
                      simp [performWebSearch_ok hweb, hmsg]
          | call_sed_agent =>
              have hchoice : s1.tool_choice = "sed_search" := by
                rcases hinv with ⟨_, hn⟩ | ⟨hc, _⟩ | ⟨_, hn⟩ <;>
                  first
                    | exact absurd hn (by decide)
                    | exact hc
              dsimp only at h
              cases hgen : generateResponse w (callSedAgent w s1) with
              | error e => rw [hgen] at h; exact absurd h (by simp)
              | ok s3 =>
                  rw [hgen] at h
                  simp only [Except.ok.injEq, Prod.mk.injEq] at h
                  obtain ⟨rfl, rfl⟩ := h
                  obtain ⟨text, hgr, rfl⟩ := generateResponse_ok hgen
                  refine ⟨text, hgr, ?_,
                    Or.inr (Or.inr ⟨by rw [← htc]; exact hchoice, rfl⟩)⟩
                  have : (callSedAgent w s1).messages = s1.messages := rfl
                  simp [this, hmsg]

/-- The availability demotion: a planned `sed_search` with the SED agent
uninitialized resolves to `web_search`. -/
theorem resolved_of_sed_unavailable {w : OrchWorld}
    (h1 : plannedChoice w = "sed_search") (h2 : w.sedAvailable = false) :
    resolvedChoice w = "web_search" := by
  rw [resolvedChoice, h1, h2]
  rfl

/-- C4: on every completed orchestrator turn the graph runs exactly one of
the three routes — no tool, web search, or SED agent — as selected by the
resolved tool choice; every route passes through `plan_and_route` and
`generate_response` exactly once and through at most one tool node; and a
planned `sed_search` with the SED agent unavailable takes the web-search
route instead. -/
theorem c4_orchestrator_routing (w : OrchWorld) (s0 sf : MainAgentState)
    (tr : List ONode) (hrun : graphInvoke w s0 = .ok (sf, tr)) :
    tr.count .generate_response = 1 ∧
    tr.count .plan_and_route = 1 ∧
    tr.count .perform_web_search + tr.count .call_sed_agent ≤ 1 ∧
    (resolvedChoice w = "none" →
      tr = [.plan_and_route, .generate_response]) ∧
    (resolvedChoice w = "web_search" →
      tr = [.plan_and_route, .perform_web_search, .generate_response]) ∧
    (resolvedChoice w = "sed_search" →
      tr = [.plan_and_route, .call_sed_agent, .generate_response]) ∧
    (plannedChoice w = "sed_search" → w.sedAvailable = false →
      tr = [.plan_and_route, .perform_web_search, .generate_response]) := by
  obtain ⟨text, hgr, hmsgs, hcase⟩ := graphInvoke_inv hrun
  rcases hcase with ⟨hres, rfl⟩ | ⟨hres, rfl⟩ | ⟨hres, rfl⟩
  · refine ⟨by decide, by decide, by decide, fun _ => rfl, ?_, ?_, ?_⟩
    · intro h2; rw [h2] at hres; exact absurd hres (by decide)
    · intro h2; rw [h2] at hres; exact absurd hres (by decide)
    · intro h1 h2
      rw [resolved_of_sed_unavailable h1 h2] at hres
      exact absurd hres (by decide)
  · refine ⟨by decide, by decide, by decide, ?_, fun _ => rfl, ?_, fun _ _ => rfl⟩
    · intro h2; rw [h2] at hres; exact absurd hres (by decide)
    · intro h2; rw [h2] at hres; exact absurd hres (by decide)
  · refine ⟨by decide, by decide, by decide, ?_, ?_, fun _ => rfl, ?_⟩
    · intro h2; rw [h2] at hres; exact absurd hres (by decide)
    · intro h2; rw [h2] at hres; exact absurd hres (by decide)
    · intro h1 h2
      rw [resolved_of_sed_unavailable h1 h2] at hres
      exact absurd hres (by decide)

/-- Witness for C4 at a concrete turn: planned `sed_search` with the SED
agent unavailable, showing the web-search route taken. -/
theorem c4_orchestrator_routing_witness :
    ([ONode.plan_and_route, .perform_web_search, .generate_response].count
        ONode.generate_response = 1) :=
  (c4_orchestrator_routing
      ⟨false, some ⟨some "sed_search", some "q"⟩, fun _ => .ok [], "s", .ok "r"⟩
      (initialState [⟨"user", "hi"⟩])
      ⟨[⟨"user", "hi"⟩, ⟨"assistant", "r"⟩], "web_search", "q", [], ""⟩
      [.plan_and_route, .perform_web_search, .generate_response] rfl).1

/-- C9: `process_message` returns the input messages with exactly one
assistant message appended — also when graph execution raises, in which
case the appended message reports the error and the preceding messages are
the unchanged input. -/
theorem c9_process_message_appends (w : OrchWorld) (messages : List Msg)
    (hne : messages ≠ []) :
    ∃ content, process_message w messages =
      messages ++ [⟨"assistant", content⟩] := by
  rw [process_message]
  cases hrun : graphInvoke w (initialState messages) with
  | error e => exact ⟨"I\x27m sorry, an error occurred: " ++ e, rfl⟩
  | ok p =>
      obtain ⟨sf, tr⟩ := p
      obtain ⟨text, _, hm, _⟩ := graphInvoke_inv hrun
      exact ⟨text, hm⟩

/-- Witness for C9: a turn whose planner reply fails to parse; the reply
message is appended to the unchanged history. -/
theorem c9_process_message_appends_witness :
    ∃ content,
      process_message ⟨true, none, fun _ => .ok [], "", .ok "hello"⟩
          [⟨"user", "hi"⟩] =
        [⟨"user", "hi"⟩] ++ [⟨"assistant", content⟩] :=
  c9_process_message_appends ⟨true, none, fun _ => .ok [], "", .ok "hello"⟩
    [⟨"user", "hi"⟩] (by decide)

/-! ## The SED agent (`sed_agent.py`; claims C3, C6, C10) -/

/-- One document summary from the SED search API (`docId`, `title`,
`summary`, each key possibly absent). -/
structure SEDDoc where
  docId : Option String
  title : Option String
  summary : Option String
deriving DecidableEq

/-- A parsed per-document evaluation reply (scores are floats in the source,
modelled as rationals). -/
structure DocEval where
  relevance_score : ℚ
  insight_score : ℚ
  evaluation_text : String
deriving DecidableEq

/-- A document as it sits in `doc_evaluations`: the raw document, with an
`evaluation` entry when its reply parsed. -/
structure EvDoc where
  doc : SEDDoc
  evaluation : Option DocEval
deriving DecidableEq

/-- The no-result sentinel test used by the store and evaluate steps
(`sed_agent.py` 179, 222): empty results, or a first document titled
`"No Results"`. -/
def isNoResults (docs : List SEDDoc) : Bool :=
  match docs with
  | [] => true
  | d :: _ => d.title = some "No Results"

/-- The evaluation loop of `_evaluate_documents_step`
(`sed_agent.py` 236–286), carrying the running index: a parsed reply
attaches the evaluation, a parse failure (`JSONDecodeError`/
`AttributeError`, caught per document) appends the document unchanged. -/
def evalDocsFrom (replies : Nat → Option DocEval) :
    Nat → List SEDDoc → List EvDoc
  | _, [] => []
  | i, d :: ds =>
      (match replies i with
       | some ev => ⟨d, some ev⟩
       | none => ⟨d, none⟩) :: evalDocsFrom replies (i + 1) ds

/-- `_evaluate_documents_step` (`sed_agent.py` 220–296) with the model's
per-document parse outcomes supplied externally; the step is total — a
parse failure becomes a document without an `evaluation` entry, never an
escaping exception. -/
def evaluateDocumentsStep (replies : Nat → Option DocEval)
    (docs : List SEDDoc) : List EvDoc :=
  if isNoResults docs then [] else evalDocsFrom replies 0 docs

/-- The combined ranking key `relevance_score + insight_score`
(`sed_agent.py` 309), with the source's `get(..., 0)` defaults. -/
def combinedScore (d : EvDoc) : ℚ :=
  match d.evaluation with
  | some e => e.relevance_score + e.insight_score
  | none => 0

/-- The filter `'evaluation' in doc` (`sed_agent.py` 308). -/
def hasEval (d : EvDoc) : Bool :=
  d.evaluation.isSome

/-- `sorted_docs` (`sed_agent.py` 307–311): the evaluated documents, sorted
by non-increasing combined score (Python's stable `sorted` with
`reverse=True`, modelled by a stable merge sort on the flipped order). -/
def sortedEvalDocs (docs : List EvDoc) : List EvDoc :=
  (docs.filter hasEval).mergeSort fun a b =>
    decide (combinedScore b ≤ combinedScore a)

/-- The documents handed to the synthesis prompt: the top 5 of the sorted
evaluated documents (`sorted_docs[:5]`, `sed_agent.py` 315). -/
def presentedDocs (docs : List EvDoc) : List EvDoc :=
  (sortedEvalDocs docs).take 5

/-- The fixed reply when `doc_evaluations` is empty (`sed_agent.py` 303). -/
def noResultsSummary : String :=
  "I searched for relevant documents but did not find any that matched your query."

/-- One block of `doc_summaries` (`sed_agent.py` 322–328); rational scores
stand in for Python's float formatting. -/
def docSummaryFor (i : Nat) (d : EvDoc) : String :=
  "\nDocument " ++ toString (i + 1) ++ ": " ++ d.doc.title.getD "No Title" ++
  "\nRelevance Score: " ++
    (match d.evaluation with
     | some e => toString e.relevance_score
     | none => "N/A") ++
  "/10 | Insight Score: " ++
    (match d.evaluation with
     | some e => toString e.insight_score
     | none => "N/A") ++
  "/10\nSummary: " ++ d.doc.summary.getD "No Summary" ++
  "\nEvaluation: " ++
    (match d.evaluation with
     | some e => e.evaluation_text
     | none => "No evaluation") ++
  "\n---\n"

/-- The synthesis prompt (`sed_agent.py` 331–348): both queries and the
space-joined document summaries. -/
def synthesisPrompt (original_query query : String)
    (doc_summaries : List String) : String :=
  "You are an intelligence analyst synthesizing information from evaluated documents.\n\n**User\x27s Original Question:** \"" ++
  original_query ++ "\"\n\n**Query Used for Search:** \"" ++ query ++
  "\"\n\n**Evaluated Documents:**\n" ++ joinSep " " doc_summaries ++
  "\n\n**Your Task:**\nWrite a comprehensive synthesis that:\n1. Directly answers the user\x27s question\n2. Integrates insights from the most relevant documents\n3. Highlights confidence levels based on document evaluations\n4. Notes any significant gaps or contradictions\n\nFocus on creating actionable intelligence from these evaluated sources.\n"

/-- `_synthesize_results_step` (`sed_agent.py` 298–359): the fixed summary
(and no model call) on an empty `doc_evaluations`; otherwise the model is
called on the synthesis prompt built from the top-5 sorted documents, with
the titled fallback sentence when the call raises.  The boolean records
whether the model was invoked. -/
def synthesizeResultsStep (llm : String → Except String String)
    (original_query query : String) (docs : List EvDoc) : String × Bool :=
  if docs.isEmpty then (noResultsSummary, false)
  else
    let doc_summaries := (presentedDocs docs).enum.map fun p =>
      docSummaryFor p.1 p.2
    match llm (synthesisPrompt original_query query doc_summaries) with
    | .ok t => (t, true)
    | .error _ =>
        ("I found " ++ toString (sortedEvalDocs docs).length ++
         " documents related to your query, but encountered an issue creating a synthesis. The most relevant document was titled: " ++
         (match sortedEvalDocs docs with
          | [] => "Unknown"
          | d :: _ => d.doc.title.getD "Untitled"), true)

/-! ## The document store of `sed_agent.py` (claim C10) -/

/-- One row of the SQLite `documents` table (`sed_agent.py` 75–84;
`doc_id` is the primary key, `created_at` is elided). -/
structure DocRow where
  doc_id : String
  query : String
  title : String
  content : String
  metadata : String
deriving DecidableEq

/-- A search-result document rendered back to JSON for `json.dumps(doc)`. -/
def sedDocJson (d : SEDDoc) : Json :=
  .obj ((match d.docId with
         | some v => [("docId", Json.str v)]
         | none => []) ++
        (match d.title with
         | some v => [("title", Json.str v)]
         | none => []) ++
        (match d.summary with
         | some v => [("summary", Json.str v)]
         | none => []))

/-- The stored document id: `doc.get('docId',
'unknown-' + str(hash(json.dumps(doc))))`; Python's opaque `hash` is the
parameter `hashFn`. -/
def docIdOf (hashFn : String → Int) (d : SEDDoc) : String :=
  match d.docId with
  | some i => i
  | none => "unknown-" ++ toString (hashFn (jsonDumps (sedDocJson d)))

/-- The per-document body of `_store_documents_step`
(`sed_agent.py` 187–210): update the row in place when a row with this
`doc_id` exists (the `SELECT` probe), insert a new row otherwise. -/
def storeDoc (hashFn : String → Int) (query : String) (table : List DocRow)
    (d : SEDDoc) : List DocRow :=
  let docId := docIdOf hashFn d
  let content := jsonDumps (sedDocJson d)
  let metadata := jsonDumps (.obj [("source", .str "SED API"),
                                   ("query", .str query)])
  if table.any fun r => r.doc_id = docId then
    table.map fun r =>
      if r.doc_id = docId then
        { r with query := query, content := content, metadata := metadata }
      else r
  else
    table ++ [⟨docId, query, d.title.getD "No Title", content, metadata⟩]

/-- `_store_documents_step` (`sed_agent.py` 177–218): skipped on the
no-result sentinel, otherwise each search result is stored in order. -/
def storeDocumentsStep (hashFn : String → Int) (query : String)
    (table : List DocRow) (docs : List SEDDoc) : List DocRow :=
  if isNoResults docs then table
  else docs.foldl (storeDoc hashFn query) table

/-- C3: the documents presented to the report generator are exactly the
entries of `doc_evaluations` that carry an `evaluation`, arranged in
non-increasing order of combined score `relevance_score + insight_score`
and truncated to at most the top five; and on an empty `doc_evaluations`
the step returns the fixed no-results summary without invoking the model
(the result is the same for every model outcome, flagged not-called). -/
theorem c3_synthesis_ranking (docs : List EvDoc) :
    (∀ (llm : String → Except String String) (original_query query : String),
        synthesizeResultsStep llm original_query query [] =
          (noResultsSummary, false)) ∧
    (presentedDocs docs).length ≤ 5 ∧
    ∃ l : List EvDoc, l.Perm (docs.filter hasEval) ∧
      l.Pairwise (fun a b => combinedScore b ≤ combinedScore a) ∧
      presentedDocs docs = l.take 5 := by
  refine ⟨fun llm oq q => rfl, ?_, ?_⟩
  · rw [presentedDocs]
    exact (List.length_take _ _).le.trans (min_le_left _ _)
  · refine ⟨sortedEvalDocs docs, List.mergeSort_perm _ _, ?_, rfl⟩
    have hs := @List.sorted_mergeSort EvDoc
      (fun a b : EvDoc => decide (combinedScore b ≤ combinedScore a))
      (fun a b c hab hbc => by
        simp only [decide_eq_true_eq] at *
        exact le_trans hbc hab)
      (fun a b => by
        simp only [Bool.or_eq_true, decide_eq_true_eq]
        exact le_total (combinedScore b) (combinedScore a))
      (docs.filter hasEval)
    rw [sortedEvalDocs]
    exact hs.imp fun h => of_decide_eq_true h

/-- C6: JSON parsing of model output is best-effort and total.  A planner
turn whose reply fails to parse proceeds with tool `"none"` and an empty
query instead of raising; and each document whose evaluation reply fails
to parse is carried into `doc_evaluations` without an `evaluation` entry
(position `i` of the output pairs document `i` with its parse outcome,
`none` recorded as no evaluation). -/
theorem c6_best_effort_json_parsing :
    (∀ (w : OrchWorld) (s : MainAgentState), w.plannerReply = none →
        s.messages.isEmpty = false →
        planAndRoute w s =
          .ok { s with tool_choice := "none", search_query := "" }) ∧
    (∀ (replies : Nat → Option DocEval) (docs : List SEDDoc) (i : Nat)
        (d : SEDDoc), isNoResults docs = false → docs[i]? = some d →
        (evaluateDocumentsStep replies docs)[i]? =
          some ⟨d, replies i⟩) := by
  constructor
  · intro w s h1 h2
    rw [planAndRoute, if_neg (by simp [h2]), h1]
  · have key : ∀ (replies : Nat → Option DocEval) (docs : List SEDDoc)
        (start i : Nat) (d : SEDDoc), docs[i]? = some d →
        (evalDocsFrom replies start docs)[i]? =
          some ⟨d, replies (start + i)⟩ := by
      intro replies docs
      induction docs with
      | nil => intro start i d hd; simp at hd
      | cons d0 ds ih =>
          intro start i d hd
          cases i with
          | zero =>
              simp only [List.getElem?_cons_zero, Option.some.injEq] at hd
              subst hd
              rw [evalDocsFrom]
              cases hr : replies start <;> simp [hr]
          | succ n =>
              simp only [List.getElem?_cons_succ] at hd
              rw [evalDocsFrom]
              have := ih (start + 1) n d hd
              simpa [Nat.add_assoc, Nat.add_comm 1 n] using this
    intro replies docs i d hnr hd
    rw [evaluateDocumentsStep, if_neg (by simp [hnr])]
    simpa using key replies docs 0 i d hd

/-! ### Identity of stored document ids (claim C10) -/

theorem storeDoc_ids_of_mem {hashFn : String → Int} {q : String}
    {table : List DocRow} {d : SEDDoc}
    (h : docIdOf hashFn d ∈ table.map DocRow.doc_id) :
    (storeDoc hashFn q table d).map DocRow.doc_id =
      table.map DocRow.doc_id := by
  obtain ⟨r0, hr0, hre⟩ := List.mem_map.mp h
  rw [storeDoc]
  rw [if_pos (List.any_eq_true.mpr ⟨r0, hr0, by simp [hre]⟩)]
  rw [List.map_map]
  apply List.map_congr_left
  intro r _
  by_cases hr : r.doc_id = docIdOf hashFn d <;> simp [Function.comp, hr]

theorem storeDoc_ids_of_not_mem {hashFn : String → Int} {q : String}
    {table : List DocRow} {d : SEDDoc}
    (h : docIdOf hashFn d ∉ table.map DocRow.doc_id) :
    (storeDoc hashFn q table d).map DocRow.doc_id =
      table.map DocRow.doc_id ++ [docIdOf hashFn d] := by
  rw [storeDoc]
  rw [if_neg (by
    simp only [List.any_eq_true, decide_eq_true_eq, not_exists]
    intro r hr
    exact h (List.mem_map.mpr ⟨r, hr.1, hr.2⟩))]
  rw [List.map_append]
  rfl

theorem storeDoc_nodup {hashFn : String → Int} {q : String}
    {table : List DocRow} {d : SEDDoc}
    (h : (table.map DocRow.doc_id).Nodup) :
    ((storeDoc hashFn q table d).map DocRow.doc_id).Nodup := by
  by_cases hm : docIdOf hashFn d ∈ table.map DocRow.doc_id
  · rw [storeDoc_ids_of_mem hm]; exact h
  · rw [storeDoc_ids_of_not_mem hm]
    simp [List.nodup_append, h, hm]

theorem storeDoc_ids_subset {hashFn : String → Int} {q : String}
    {table : List DocRow} {d : SEDDoc} :
    table.map DocRow.doc_id ⊆ (storeDoc hashFn q table d).map DocRow.doc_id := by
  by_cases hm : docIdOf hashFn d ∈ table.map DocRow.doc_id
  · rw [storeDoc_ids_of_mem hm]
    exact fun a ha => ha
  · rw [storeDoc_ids_of_not_mem hm]
    exact List.subset_append_left _ _

theorem storeDoc_id_mem {hashFn : String → Int} {q : String}
    {table : List DocRow} {d : SEDDoc} :
    docIdOf hashFn d ∈ (storeDoc hashFn q table d).map DocRow.doc_id := by
  by_cases hm : docIdOf hashFn d ∈ table.map DocRow.doc_id
  · rw [storeDoc_ids_of_mem hm]; exact hm
  · rw [storeDoc_ids_of_not_mem hm]; simp

theorem foldl_store_nodup (hashFn : String → Int) (q : String) :
    ∀ (docs : List SEDDoc) (table : List DocRow),
      (table.map DocRow.doc_id).Nodup →
      ((docs.foldl (storeDoc hashFn q) table).map DocRow.doc_id).Nodup := by
  intro docs
  induction docs with
  | nil => intro table h; exact h
  | cons d ds ih =>
      intro table h
      rw [List.foldl_cons]
      exact ih _ (storeDoc_nodup h)

theorem foldl_store_subset (hashFn : String → Int) (q : String) :
    ∀ (docs : List SEDDoc) (table : List DocRow),
      table.map DocRow.doc_id ⊆
        (docs.foldl (storeDoc hashFn q) table).map DocRow.doc_id := by
  intro docs
  induction docs with
  | nil => intro table; exact fun a ha => ha
  | cons d ds ih =>
      intro table
      rw [List.foldl_cons]
      exact storeDoc_ids_subset.trans (ih _)

theorem foldl_store_mem_ids (hashFn : String → Int) (q : String) :
    ∀ (docs : List SEDDoc) (table : List DocRow), ∀ d ∈ docs,
      docIdOf hashFn d ∈
        (docs.foldl (storeDoc hashFn q) table).map DocRow.doc_id := by
  intro docs
  induction docs with
  | nil => intro table d hd; simp at hd
  | cons d0 ds ih =>
      intro table d hd
      rw [List.foldl_cons]
      rcases List.mem_cons.mp hd with rfl | hd
      · exact foldl_store_subset hashFn q ds _ storeDoc_id_mem
      · exact ih _ d hd

theorem foldl_store_ids_of_all_mem (hashFn : String → Int) (q : String) :
    ∀ (docs : List SEDDoc) (table : List DocRow),
      (∀ d ∈ docs, docIdOf hashFn d ∈ table.map DocRow.doc_id) →
      (docs.foldl (storeDoc hashFn q) table).map DocRow.doc_id =
        table.map DocRow.doc_id := by
  intro docs
  induction docs with
  | nil => intro table _; rfl
  | cons d0 ds ih =>
      intro table hall
      rw [List.foldl_cons]
      have h0 := storeDoc_ids_of_mem (q := q) (hall d0 (List.mem_cons_self d0 ds))
      rw [ih _ (by
        intro d hd
        rw [h0]
        exact hall d (List.mem_cons_of_mem d0 hd))]
      exact h0

/-- C10: the store step keeps each `doc_id` unique — starting from a table
with pairwise-distinct ids, it updates the existing row in place when a
result's id is already present and inserts otherwise, so ids stay distinct;
and re-storing the same results leaves the stored id list unchanged
(idempotent re-storage). -/
theorem c10_store_documents_idempotent (hashFn : String → Int)
    (query : String) (table : List DocRow) (docs : List SEDDoc)
    (h : (table.map DocRow.doc_id).Nodup) :
    ((storeDocumentsStep hashFn query table docs).map DocRow.doc_id).Nodup ∧
    (storeDocumentsStep hashFn query
        (storeDocumentsStep hashFn query table docs) docs).map DocRow.doc_id =
      (storeDocumentsStep hashFn query table docs).map DocRow.doc_id := by
  rw [storeDocumentsStep]
  by_cases hnr : isNoResults docs = true
  · rw [if_pos hnr]
    refine ⟨h, ?_⟩
    rw [storeDocumentsStep, if_pos hnr]
  · rw [if_neg hnr]
    refine ⟨foldl_store_nodup hashFn query docs table h, ?_⟩
    rw [storeDocumentsStep, if_neg hnr]
    exact foldl_store_ids_of_all_mem hashFn query docs _
      (fun d hd => foldl_store_mem_ids hashFn query docs table d hd)

/-- Witness for C10 at a concrete store: two results sharing a `docId`
stored into an empty table. -/
theorem c10_store_documents_idempotent_witness :
    ((storeDocumentsStep (fun _ => 0) "q" []
        [⟨some "d1", some "t1", none⟩, ⟨some "d1", some "t2", none⟩]).map
          DocRow.doc_id).Nodup ∧
    (storeDocumentsStep (fun _ => 0) "q"
        (storeDocumentsStep (fun _ => 0) "q" []
          [⟨some "d1", some "t1", none⟩, ⟨some "d1", some "t2", none⟩])
        [⟨some "d1", some "t1", none⟩, ⟨some "d1", some "t2", none⟩]).map
          DocRow.doc_id =
      (storeDocumentsStep (fun _ => 0) "q" []
        [⟨some "d1", some "t1", none⟩, ⟨some "d1", some "t2", none⟩]).map
          DocRow.doc_id :=
  c10_store_documents_idempotent (fun _ => 0) "q" []
    [⟨some "d1", some "t1", none⟩, ⟨some "d1", some "t2", none⟩] (by simp)

end AgentSmith
